import Mathlib

/-
  Formal model of the French morphology and contraction engine of the
  sentence-building app (src/constants.ts, with the merge loop and the
  assembly step of the game screen component).

  Conventions of the embedding:
  * TypeScript strings are Lean `String`s; `slice(0,-1)` / `slice(0,-2)`
    become `String.dropRight`.
  * `Math.random()`-based id suffixes are modelled by an explicit supply
    `rnd : Nat → String`; theorems quantify over the supply, since no
    observable behaviour depends on the generated ids.
  * The optional `tags?: string[]` field is modelled as `tags : List String`
    with absence as `[]`; every code path treats `undefined` and `[]` alike
    (`word.tags?.includes(..)` and `word.tags || []`).
  * `String.prototype.toLowerCase` is modelled character-wise for the ASCII
    letters and the accented capitals that can occur in this lexicon.
-/

namespace FrenchEngine

/-- The apostrophe character, written via its code point. -/
def apoChar : Char := Char.ofNat 39

/-- A one-character string holding an apostrophe. -/
def apoStr : String := String.mk [apoChar]

inductive PartOfSpeech where
  | SUBJECT
  | VERB
  | VERB_AUX
  | VERB_INF
  | VERB_PP
  | ARTICLE
  | POSSESSIVE
  | NOUN
  | ADJECTIVE
  | PREPOSITION
  | ADVERB
  | OBJECT
  | CONNECTOR
  | NEGATION
deriving DecidableEq, Repr

/-- The string value of each enum member in types.ts (used in generated ids). -/
def posStr : PartOfSpeech → String
  | PartOfSpeech.SUBJECT => "Subject"
  | PartOfSpeech.VERB => "Verb"
  | PartOfSpeech.VERB_AUX => "Auxiliary"
  | PartOfSpeech.VERB_INF => "Infinitive"
  | PartOfSpeech.VERB_PP => "Past Participle"
  | PartOfSpeech.ARTICLE => "Article"
  | PartOfSpeech.POSSESSIVE => "Possessive"
  | PartOfSpeech.NOUN => "Noun"
  | PartOfSpeech.ADJECTIVE => "Adjective"
  | PartOfSpeech.PREPOSITION => "Preposition"
  | PartOfSpeech.ADVERB => "Adverb"
  | PartOfSpeech.OBJECT => "Object"
  | PartOfSpeech.CONNECTOR => "Connector"
  | PartOfSpeech.NEGATION => "Negation"

structure Word where
  id : String
  text : String
  type : PartOfSpeech
  translation : String
  tags : List String
deriving DecidableEq, Repr

structure SentenceSlot where
  id : String
  type : PartOfSpeech
  value : Option Word
  placeholder : String
deriving DecidableEq, Repr

/-- createWord from constants.ts; `rnd` stands for the random id suffix. -/
def createWord (rnd : String) (text : String) (type : PartOfSpeech)
    (translation : String) (tags : List String) : Word :=
  { id := text ++ "-" ++ posStr type ++ "-" ++ rnd
    text := text
    type := type
    translation := translation
    tags := tags }

/-- Character-wise model of JavaScript `toLowerCase` for the alphabet used by
the lexicon: ASCII letters plus the accented capitals. -/
def jsToLowerChar (c : Char) : Char :=
  if 'A' ≤ c ∧ c ≤ 'Z' then Char.ofNat (c.toNat + 32)
  else if c = 'É' then 'é'
  else if c = 'È' then 'è'
  else if c = 'Ê' then 'ê'
  else if c = 'À' then 'à'
  else if c = 'Â' then 'â'
  else if c = 'Î' then 'î'
  else if c = 'Ô' then 'ô'
  else if c = 'Û' then 'û'
  else if c = 'Ù' then 'ù'
  else if c = 'Ç' then 'ç'
  else c

def jsToLower (s : String) : String := String.mk (s.data.map jsToLowerChar)

/-- JavaScript `String.prototype.endsWith`, computed over character lists. -/
def jsEndsWith (s suf : String) : Bool := suf.data.isSuffixOf s.data

/-- JavaScript `String.prototype.startsWith`, computed over character lists. -/
def jsStartsWith (s pre : String) : Bool := pre.data.isPrefixOf s.data

/-- JavaScript `String.prototype.replace` with a plain-string pattern replaces
only the first occurrence; helper over character lists. -/
def replaceFirstGo (pat repl : List Char) : List Char → List Char
  | [] => []
  | c :: cs =>
    if pat.isPrefixOf (c :: cs) then repl ++ (c :: cs).drop pat.length
    else c :: replaceFirstGo pat repl cs

def jsReplaceFirst (s pat repl : String) : String :=
  String.mk (replaceFirstGo pat.data repl.data s.data)

-- --- Fixed auxiliary tables (constants.ts) ---

def AUX_ALLER (rnd : Nat → String) : List Word :=
  [ createWord (rnd 0) "aller" PartOfSpeech.VERB_INF "to go (Aux)" []
  , createWord (rnd 1) "vais" PartOfSpeech.VERB_AUX "am going (Je)" ["Je"]
  , createWord (rnd 2) "vas" PartOfSpeech.VERB_AUX "are going (Tu)" ["Tu"]
  , createWord (rnd 3) "va" PartOfSpeech.VERB_AUX "is going (Il/Elle)" ["Il", "Elle"]
  , createWord (rnd 4) "allons" PartOfSpeech.VERB_AUX "are going (Nous)" ["Nous"]
  , createWord (rnd 5) "allez" PartOfSpeech.VERB_AUX "are going (Vous)" ["Vous"]
  , createWord (rnd 6) "vont" PartOfSpeech.VERB_AUX "are going (Ils/Elles)" ["Ils", "Elles"]
  , createWord (rnd 7) "allé" PartOfSpeech.VERB_PP "gone" [] ]

def AUX_AVOIR_ETRE (rnd : Nat → String) : List Word :=
  [ createWord (rnd 0) "avoir" PartOfSpeech.VERB_INF "to have (Aux)" []
  , createWord (rnd 1) "être" PartOfSpeech.VERB_INF "to be (Aux)" []
  , createWord (rnd 2) "ai" PartOfSpeech.VERB_AUX "have (Je)" ["Je"]
  , createWord (rnd 3) "as" PartOfSpeech.VERB_AUX "have (Tu)" ["Tu"]
  , createWord (rnd 4) "a" PartOfSpeech.VERB_AUX "has (Il/Elle)" ["Il", "Elle"]
  , createWord (rnd 5) "avons" PartOfSpeech.VERB_AUX "have (Nous)" ["Nous"]
  , createWord (rnd 6) "avez" PartOfSpeech.VERB_AUX "have (Vous)" ["Vous"]
  , createWord (rnd 7) "ont" PartOfSpeech.VERB_AUX "have (Ils/Elles)" ["Ils", "Elles"]
  , createWord (rnd 8) "eu" PartOfSpeech.VERB_PP "had" []
  , createWord (rnd 9) "suis" PartOfSpeech.VERB_AUX "am (Je)" ["Je"]
  , createWord (rnd 10) "es" PartOfSpeech.VERB_AUX "are (Tu)" ["Tu"]
  , createWord (rnd 11) "est" PartOfSpeech.VERB_AUX "is (Il/Elle)" ["Il", "Elle"]
  , createWord (rnd 12) "sommes" PartOfSpeech.VERB_AUX "are (Nous)" ["Nous"]
  , createWord (rnd 13) "êtes" PartOfSpeech.VERB_AUX "are (Vous)" ["Vous"]
  , createWord (rnd 14) "sont" PartOfSpeech.VERB_AUX "are (Ils/Elles)" ["Ils", "Elles"]
  , createWord (rnd 15) "été" PartOfSpeech.VERB_PP "been" [] ]

/-- generateErVerbs from constants.ts: present-tense paradigm of a regular
"-er" verb, with the -ger / -cer nous-form and -yer stem adjustments. -/
def generateErVerbs (rnd : Nat → String) (root : String) (translationBase : String) :
    List Word :=
  let stem := root.dropRight 2
  let nousForm :=
    if jsEndsWith root "ger" then stem ++ "eons"
    else if jsEndsWith root "cer" then stem.dropRight 1 ++ "çons"
    else stem ++ "ons"
  let isYer := jsEndsWith root "yer"
  let singularStem := if isYer then stem.dropRight 1 ++ "i" else stem
  [ createWord (rnd 0) (singularStem ++ "e") PartOfSpeech.VERB
      (translationBase ++ " (Je/Il)") ["Je", "Il", "Elle"]
  , createWord (rnd 1) (singularStem ++ "es") PartOfSpeech.VERB
      (translationBase ++ " (Tu)") ["Tu"]
  , createWord (rnd 2) nousForm PartOfSpeech.VERB
      (translationBase ++ " (Nous)") ["Nous"]
  , createWord (rnd 3) (stem ++ "ez") PartOfSpeech.VERB
      (translationBase ++ " (Vous)") ["Vous"]
  , createWord (rnd 4) (singularStem ++ "ent") PartOfSpeech.VERB
      (translationBase ++ " (Ils/Elles)") ["Ils", "Elles"] ]

structure VerbForms where
  inf : Word
  pp : Option Word
  conjugations : List Word
deriving DecidableEq, Repr

/-- getVerbForms from constants.ts: all forms of a verb (infinitive, past
participle, conjugations). -/
def getVerbForms (rnd : Nat → String) (rootVerb : Word) : VerbForms :=
  if rootVerb.text = "avoir" then
    let avoirForms := ["ai", "as", "a", "avons", "avez", "ont"]
    { inf := rootVerb
      pp := (AUX_AVOIR_ETRE rnd).find?
        (fun w => decide (w.type = PartOfSpeech.VERB_PP ∧ w.text = "eu"))
      conjugations := (AUX_AVOIR_ETRE rnd).filter
        (fun w => decide (w.type = PartOfSpeech.VERB_AUX) && avoirForms.contains w.text) }
  else if rootVerb.text = "être" then
    let etreForms := ["suis", "es", "est", "sommes", "êtes", "sont"]
    { inf := rootVerb
      pp := (AUX_AVOIR_ETRE rnd).find?
        (fun w => decide (w.type = PartOfSpeech.VERB_PP ∧ w.text = "été"))
      conjugations := (AUX_AVOIR_ETRE rnd).filter
        (fun w => decide (w.type = PartOfSpeech.VERB_AUX) && etreForms.contains w.text) }
  else if rootVerb.text = "aller" then
    { inf := rootVerb
      pp := (AUX_ALLER rnd).find? (fun w => decide (w.type = PartOfSpeech.VERB_PP))
      conjugations := (AUX_ALLER rnd).filter
        (fun w => decide (w.type = PartOfSpeech.VERB_AUX)) }
  else if jsEndsWith rootVerb.text "er" || jsEndsWith rootVerb.text "ir"
      || jsEndsWith rootVerb.text "re" then
    if jsEndsWith rootVerb.text "er" then
      let conjugations :=
        generateErVerbs rnd rootVerb.text (jsReplaceFirst rootVerb.translation "to " "")
      let ppText := rootVerb.text.dropRight 2 ++ "é"
      let pp := createWord (rnd 5) ppText PartOfSpeech.VERB_PP "Past Participle" []
      { inf := rootVerb, pp := some pp, conjugations := conjugations }
    else
      { inf := rootVerb, pp := none, conjugations := [] }
  else
    { inf := rootVerb, pp := none, conjugations := [] }

-- --- Variation logic (gender / number inflection) ---

/-- The gender argument of generateVariations: TypeScript union 'm' | 'f'. -/
inductive GenderOpt where
  | m
  | f
deriving DecidableEq, Repr

/-- The number argument of generateVariations: TypeScript union 's' | 'pl'. -/
inductive NumberOpt where
  | s
  | pl
deriving DecidableEq, Repr

structure AdjIrregular where
  f : String
  mpl : String
  fpl : String
deriving DecidableEq, Repr

/-- The irregularAdjectives table of constants.ts (lemma → feminine,
masculine-plural, feminine-plural forms). -/
def irregularAdjectives : List (String × AdjIrregular) :=
  [ ("beau", ⟨"belle", "beaux", "belles"⟩)
  , ("nouveau", ⟨"nouvelle", "nouveaux", "nouvelles"⟩)
  , ("vieux", ⟨"vieille", "vieux", "vieilles"⟩)
  , ("frais", ⟨"fraîche", "frais", "fraîches"⟩)
  , ("blanc", ⟨"blanche", "blancs", "blanches"⟩)
  , ("heureux", ⟨"heureuse", "heureux", "heureuses"⟩)
  , ("délicieux", ⟨"délicieuse", "délicieux", "délicieuses"⟩)
  , ("dangereux", ⟨"dangereuse", "dangereux", "dangereuses"⟩) ]

/-- generateVariations from constants.ts: inflect a noun or adjective for the
requested gender and number (identity on every other part of speech). -/
def generateVariations (word : Word) (gender : GenderOpt) (number : NumberOpt) : Word :=
  if word.type = PartOfSpeech.NOUN then
    let text0 := word.text
    let isFemTag := word.tags.contains "f" || word.tags.contains "feminine"
    let text1 :=
      if gender = GenderOpt.f ∧ isFemTag = false then
        if text0 = "chat" then "chatte"
        else if text0 = "chien" then "chienne"
        else if text0 = "sorcier" then "sorcière"
        else if jsEndsWith text0 "er" then text0.dropRight 2 ++ "ère"
        else if jsEndsWith text0 "f" then text0.dropRight 1 ++ "ve"
        else if jsEndsWith text0 "x" then text0.dropRight 1 ++ "se"
        else if !(jsEndsWith text0 "e") then text0 ++ "e"
        else text0
      else text0
    let text2 :=
      if number = NumberOpt.pl then
        if jsEndsWith text1 "s" || jsEndsWith text1 "x" || jsEndsWith text1 "z" then text1
        else if jsEndsWith text1 "au" || jsEndsWith text1 "eu" then text1 ++ "x"
        else if jsEndsWith text1 "al" then text1.dropRight 2 ++ "aux"
        else text1 ++ "s"
      else text1
    { word with
        text := text2
        tags := [ if gender = GenderOpt.f then "feminine" else "masculine"
                , if number = NumberOpt.pl then "plural" else "singular" ] }
  else if word.type = PartOfSpeech.ADJECTIVE then
    let text0 := word.text
    let text2 :=
      match irregularAdjectives.lookup word.text with
      | some forms =>
        if gender = GenderOpt.f ∧ number = NumberOpt.s then forms.f
        else if gender = GenderOpt.m ∧ number = NumberOpt.pl then forms.mpl
        else if gender = GenderOpt.f ∧ number = NumberOpt.pl then forms.fpl
        else text0
      | none =>
        let text1 :=
          if gender = GenderOpt.f then
            (if !(jsEndsWith text0 "e") then text0 ++ "e" else text0)
          else text0
        if number = NumberOpt.pl then
          if jsEndsWith text1 "s" || jsEndsWith text1 "x" then text1
          else if jsEndsWith text1 "au" then text1 ++ "x"
          else text1 ++ "s"
        else text1
    { word with
        text := text2
        tags := word.tags ++
          [ if gender = GenderOpt.f then "feminine" else "masculine"
          , if number = NumberOpt.pl then "plural" else "singular" ] }
  else word

-- --- String-level elision normalization (applyFrenchElision) ---

/-- Word character in the sense of the JavaScript regex `\b` assertion
(`[A-Za-z0-9_]`; accented letters are not word characters). -/
def isWordChar (c : Char) : Bool :=
  ('a' ≤ c && c ≤ 'z') || ('A' ≤ c && c ≤ 'Z') || ('0' ≤ c && c ≤ '9') || c = '_'

/-- Whitespace in the sense of the regex `\s` class (the forms that can occur
in assembled sentences). -/
def isSpaceChar (c : Char) : Bool :=
  c = ' ' || c = '\t' || c = '\n' || c = '\r'

/-- Case-insensitive prefix match: if the lowercased input starts with the
(lowercase) pattern, return the matched original characters and the rest. -/
def stripCI : List Char → List Char → Option (List Char × List Char)
  | [], cs => some ([], cs)
  | _ :: _, [] => none
  | p :: ps, c :: cs =>
    if jsToLowerChar c = p then
      (stripCI ps cs).map (fun r => (c :: r.1, r.2))
    else none

/-- Split a leading (possibly empty) whitespace run off a character list. -/
def takeSpaces : List Char → List Char × List Char
  | [] => ([], [])
  | c :: cs =>
    if isSpaceChar c then
      let r := takeSpaces cs
      (c :: r.1, r.2)
    else ([], c :: cs)

/-- Trigger alternatives of the first substitution regex of applyFrenchElision
(`je|me|te|se|le|la|de|ne|que|ce`), in source order. -/
def regexTriggers : List (List Char) :=
  ["je", "me", "te", "se", "le", "la", "de", "ne", "que", "ce"].map String.data

/-- The character class `[aeiouyéàèùâêîôûh]` of the first substitution regex,
in source order. -/
def regexVowelClass : List Char :=
  ['a', 'e', 'i', 'o', 'u', 'y', 'é', 'à', 'è', 'ù', 'â', 'ê', 'î', 'ô', 'û', 'h']

/-- Try to match `(trigger)\s+(vowel)` at the head of the list for one trigger;
returns the original-cased trigger, the whitespace run, the vowel character and
the remaining input. -/
def tryTrigger1 (t : List Char) (cs : List Char) :
    Option (List Char × List Char × Char × List Char) :=
  match stripCI t cs with
  | none => none
  | some (p1, r1) =>
    let sp := takeSpaces r1
    if sp.1.isEmpty then none
    else
      match sp.2 with
      | [] => none
      | c :: rest =>
        if regexVowelClass.contains (jsToLowerChar c) then some (p1, sp.1, c, rest)
        else none

/-- Alternation over the trigger list (at any given position at most one
alternative can match, since the triggers differ pairwise at their first
difference). -/
def tryMatch1 : List (List Char) → List Char → Option (List Char × List Char × Char × List Char)
  | [], _ => none
  | t :: ts, cs =>
    match tryTrigger1 t cs with
    | some r => some r
    | none => tryMatch1 ts cs

/-- The replacement callback of the first substitution: contract
`trigger vowel` into `prefix'vowel`, except that `ce` contracts only before
`e`/`é`; a non-contracted match is emitted unchanged. -/
def replace1 (p1 : List Char) (sp : List Char) (p2 : Char) : List Char :=
  let word := p1.map jsToLowerChar
  if word = "ce".data then
    let nextChar := jsToLowerChar p2
    if nextChar = 'e' || nextChar = 'é' then p1.dropLast ++ apoChar :: [p2]
    else p1 ++ sp ++ [p2]
  else p1.dropLast ++ apoChar :: [p2]

/-- Driver of the first global substitution: left-to-right scan with the `\b`
state (whether the previous character is a word character); fuel decreases by
one per step while each step consumes at least one character. -/
def pass1Go : Nat → Bool → List Char → List Char
  | 0, _, cs => cs
  | _ + 1, _, [] => []
  | fuel + 1, prevW, c :: cs =>
    if prevW then c :: pass1Go fuel (isWordChar c) cs
    else
      match tryMatch1 regexTriggers (c :: cs) with
      | some (p1, sp, p2, rest) => replace1 p1 sp p2 ++ pass1Go fuel (isWordChar p2) rest
      | none => c :: pass1Go fuel (isWordChar c) cs

/-- Try to match `\b(si)\s+(il)` at the head of the list: returns the
original-cased `il` part and the rest. -/
def tryMatch2 (cs : List Char) : Option (List Char × List Char) :=
  match stripCI "si".data cs with
  | none => none
  | some (_, r1) =>
    let sp := takeSpaces r1
    if sp.1.isEmpty then none
    else
      match stripCI "il".data sp.2 with
      | none => none
      | some (p2, rest) => some (p2, rest)

/-- Driver of the second global substitution (`si il` → `s'il`); the matched
text always ends in the word character `l`, so the boundary state after a
match is `true`. -/
def pass2Go : Nat → Bool → List Char → List Char
  | 0, _, cs => cs
  | _ + 1, _, [] => []
  | fuel + 1, prevW, c :: cs =>
    if prevW then c :: pass2Go fuel (isWordChar c) cs
    else
      match tryMatch2 (c :: cs) with
      | some (p2, rest) => 's' :: apoChar :: p2 ++ pass2Go fuel true rest
      | none => c :: pass2Go fuel (isWordChar c) cs

/-- applyFrenchElision from constants.ts: the two chained global regex
substitutions over the assembled sentence string. -/
def applyFrenchElision (sentence : String) : String :=
  let afterPass1 := String.mk (pass1Go sentence.data.length false sentence.data)
  String.mk (pass2Go afterPass1.data.length false afterPass1.data)

-- --- Visual slot merge logic ---

/-- shouldElide from constants.ts: whether two adjacent slots trigger an
elision merge. -/
def shouldElide (s1 s2 : SentenceSlot) : Bool :=
  match s1.value, s2.value with
  | some v1, some v2 =>
    let w1 := jsToLower v1.text
    let w2 := jsToLower v2.text
    let elisionTriggers := ["je", "me", "te", "se", "le", "la", "de", "ne", "que", "jusque", "si", "ce"]
    if !(elisionTriggers.contains w1) then false
    else
      let vowels := ['a', 'e', 'i', 'o', 'u', 'y', 'h', 'é', 'è', 'ê']
      match w2.data with
      | [] => false
      | c :: _ =>
        if !(vowels.contains c) then false
        else if w1 == "si" && !(jsStartsWith w2 "il") then false
        else if w1 == "ce" && !(jsStartsWith w2 "est") && !(jsStartsWith w2 "ét") then false
        else true
  | _, _ => false

/-- JavaScript `slice(0, -1)`: the string with its final character removed
(identity on the empty string). -/
def jsDropLast (s : String) : String := String.mk s.data.dropLast

/-- The merge construction performed inside findElisionCandidate for a
qualifying pair.  The source re-assigns the same prefix when the first word is
"si" (a no-op kept out of the model); the non-null assertions of the source
are covered by the fallthrough branch, which is unreachable when shouldElide
holds. -/
def mergeSlots (current next : SentenceSlot) : SentenceSlot :=
  match current.value, next.value with
  | some v1, some v2 =>
    let w1 := v1.text
    let w2 := v2.text
    let pref := jsDropLast w1
    let mergedText := pref ++ apoStr ++ w2
    let mergedWord : Word :=
      { id := v1.id ++ "+" ++ v2.id
        text := mergedText
        type := v2.type
        translation := v1.translation ++ " + " ++ v2.translation
        tags := v1.tags ++ v2.tags }
    { id := current.id
      type := next.type
      value := some mergedWord
      placeholder := next.placeholder }
  | _, _ => current

structure ElisionCandidate where
  index : Nat
  mergedSlot : SentenceSlot
deriving DecidableEq, Repr

/-- findElisionCandidate from constants.ts: first adjacent pair of slots that
needs elision, scanned left to right. -/
def findElisionCandidate : List SentenceSlot → Option ElisionCandidate
  | s1 :: s2 :: rest =>
    if shouldElide s1 s2 then some ⟨0, mergeSlots s1 s2⟩
    else (findElisionCandidate (s2 :: rest)).map (fun c => ⟨c.index + 1, c.mergedSlot⟩)
  | _ => none

/-- The splice performed by the caller on a candidate:
`newSlots.splice(candidate.index, 2, candidate.mergedSlot)`. -/
def applyCandidate (slots : List SentenceSlot) (c : ElisionCandidate) : List SentenceSlot :=
  slots.take c.index ++ [c.mergedSlot] ++ slots.drop (c.index + 2)

/-- The caller's repeated single-step merge loop, expressed as a pure fuelled
reduction (each applied merge shortens the sequence by one slot). -/
def mergeLoop : Nat → List SentenceSlot → List SentenceSlot
  | 0, slots => slots
  | fuel + 1, slots =>
    match findElisionCandidate slots with
    | none => slots
    | some c => mergeLoop fuel (applyCandidate slots c)

/-- Fixed point of the merge loop, with enough fuel to exhaust every possible
merge. -/
def reduceToFixedPoint (slots : List SentenceSlot) : List SentenceSlot :=
  mergeLoop slots.length slots

/-- The assembly of handleCheckSentence: join the slot texts with single
spaces (an empty slot contributes the empty string, as `join` does for
`undefined`) and normalize with applyFrenchElision. -/
def assembleSentence (slots : List SentenceSlot) : String :=
  applyFrenchElision (String.intercalate " " (slots.map (fun s => (s.value.map Word.text).getD "")))

/-- Number of apostrophe characters in a string. -/
def apostropheCount (s : String) : Nat := s.data.count apoChar

-- --- Definitions taken from the specification's wording, for comparison ---

/-- Spec wording of the elision predicate: both slots hold Words, the
lowercased first text is in the closed trigger set, the lowercased second
text begins with a vowel-class character, narrowed by the `si` → `il` and
`ce` → `est`/`ét` restrictions. -/
def specShouldElide (a b : SentenceSlot) : Bool :=
  match a.value, b.value with
  | some wa, some wb =>
    let w1 := jsToLower wa.text
    let w2 := jsToLower wb.text
    (["je", "me", "te", "se", "le", "la", "de", "ne", "que", "jusque", "si", "ce"].contains w1)
    && (match w2.data with
        | [] => false
        | c :: _ => ['a', 'e', 'i', 'o', 'u', 'y', 'h', 'é', 'è', 'ê'].contains c)
    && (!(w1 == "si") || jsStartsWith w2 "il")
    && (!(w1 == "ce") || jsStartsWith w2 "est" || jsStartsWith w2 "ét")
  | _, _ => false

/- (specShouldElide is compared with the source predicate in the C5 theorem.) -/

/-- Whether the adjacent pair of slots at positions `i`, `i+1` qualifies for
elision. -/
def pairElides (slots : List SentenceSlot) (i : Nat) : Bool :=
  match slots[i]?, slots[i + 1]? with
  | some a, some b => shouldElide a b
  | _, _ => false

/-- Spec wording of the adjusted singular stem of a regular "-er" verb
("-yer" verbs turn the stem's final "y" into "i"). -/
def specSingularStem (root : String) : String :=
  if jsEndsWith root "yer" then (root.dropRight 2).dropRight 1 ++ "i" else root.dropRight 2

/-- Spec wording of the spelling-adjusted "nous" form of a regular "-er" verb
(stem+"eons" for "-ger" verbs; final stem consonant replaced so the form ends
in "çons" for "-cer" verbs). -/
def specNousForm (root : String) : String :=
  if jsEndsWith root "ger" then root.dropRight 2 ++ "eons"
  else if jsEndsWith root "cer" then (root.dropRight 2).dropRight 1 ++ "çons"
  else root.dropRight 2 ++ "ons"

/-- Spec wording of the noun gender step: fixed irregular lookup, else
"-er"→"-ère", else "-f"→"-ve", else "-x"→"-se", else append "e" unless the
text already ends in "e". -/
def specNounFeminize (text : String) : String :=
  if text = "chat" then "chatte"
  else if text = "chien" then "chienne"
  else if text = "sorcier" then "sorcière"
  else if jsEndsWith text "er" then text.dropRight 2 ++ "ère"
  else if jsEndsWith text "f" then text.dropRight 1 ++ "ve"
  else if jsEndsWith text "x" then text.dropRight 1 ++ "se"
  else if !(jsEndsWith text "e") then text ++ "e"
  else text

/-- Spec wording of the noun plural step: text already ending in s/x/z
unchanged, ending "-au"/"-eu" appends "x", ending "-al" becomes "aux",
otherwise append "s". -/
def specNounPluralize (text : String) : String :=
  if jsEndsWith text "s" || jsEndsWith text "x" || jsEndsWith text "z" then text
  else if jsEndsWith text "au" || jsEndsWith text "eu" then text ++ "x"
  else if jsEndsWith text "al" then text.dropRight 2 ++ "aux"
  else text ++ "s"

/-- Spec wording of the regular adjective feminine rule: append "e" unless
already ending in "e". -/
def specAdjFeminize (text : String) : String :=
  if !(jsEndsWith text "e") then text ++ "e" else text

/-- Spec wording of the regular adjective plural rule: unchanged on "s"/"x"
endings, "-au" appends "x", else append "s". -/
def specAdjPluralize (text : String) : String :=
  if jsEndsWith text "s" || jsEndsWith text "x" then text
  else if jsEndsWith text "au" then text ++ "x"
  else text ++ "s"

/-- Whether a Word is already tagged feminine (tag "f" or "feminine"). -/
def isTaggedFeminine (w : Word) : Bool :=
  w.tags.contains "f" || w.tags.contains "feminine"

-- --- Concrete lexicon samples used by witnesses and counterexamples ---

/-- A fixed id supply for concrete instantiations. -/
def rndZero : Nat → String := fun _ => ""

def wJe : Word :=
  { id := "je-1", text := "Je", type := PartOfSpeech.SUBJECT, translation := "I", tags := [] }

def wAi : Word :=
  { id := "ai-1", text := "ai", type := PartOfSpeech.VERB_AUX, translation := "have (Je)", tags := ["Je"] }

def wUn : Word :=
  { id := "un-1", text := "un", type := PartOfSpeech.ARTICLE, translation := "a (m)", tags := [] }

def wChat : Word :=
  { id := "chat-1", text := "chat", type := PartOfSpeech.NOUN, translation := "cat", tags := ["m", "mutable"] }

def wJusque : Word :=
  { id := "jusque-1", text := "jusque", type := PartOfSpeech.PREPOSITION, translation := "until", tags := [] }

def wIci : Word :=
  { id := "ici-1", text := "ici", type := PartOfSpeech.ADVERB, translation := "here", tags := [] }

def wBeau : Word :=
  { id := "beau-1", text := "beau", type := PartOfSpeech.ADJECTIVE, translation := "beautiful", tags := [] }

def wVieux : Word :=
  { id := "vieux-1", text := "vieux", type := PartOfSpeech.ADJECTIVE, translation := "old", tags := [] }

def wAvoirInf : Word :=
  { id := "avoir-1", text := "avoir", type := PartOfSpeech.VERB_INF, translation := "to have (Aux)", tags := [] }

def wAvoirCap : Word :=
  { id := "avoir-2", text := "Avoir", type := PartOfSpeech.VERB_INF, translation := "to have (Aux)", tags := [] }

def wEtreInf : Word :=
  { id := "etre-1", text := "être", type := PartOfSpeech.VERB_INF, translation := "to be (Aux)", tags := [] }

def wAllerInf : Word :=
  { id := "aller-1", text := "aller", type := PartOfSpeech.VERB_INF, translation := "to go (Aux)", tags := [] }

def wDormir : Word :=
  { id := "dormir-1", text := "dormir", type := PartOfSpeech.VERB_INF, translation := "to sleep", tags := [] }

def wManger : Word :=
  { id := "manger-1", text := "manger", type := PartOfSpeech.VERB_INF, translation := "to eat", tags := [] }

/-- A vowel-initial word whose text contains an apostrophe ("a'a"). -/
def wApos : Word :=
  { id := "apos-1", text := "a" ++ apoStr ++ "a", type := PartOfSpeech.NOUN, translation := "x", tags := [] }

/-- Wrap a word into a filled slot, the way the game screen does on
selection (slot type and placeholder from the occupant). -/
def mkSlot (w : Word) : SentenceSlot :=
  { id := "slot-" ++ w.id, type := w.type, value := some w, placeholder := posStr w.type }

def slotJe : SentenceSlot := mkSlot wJe
def slotAi : SentenceSlot := mkSlot wAi
def slotUn : SentenceSlot := mkSlot wUn
def slotChat : SentenceSlot := mkSlot wChat
def slotJusque : SentenceSlot := mkSlot wJusque
def slotIci : SentenceSlot := mkSlot wIci
def slotApos : SentenceSlot := mkSlot wApos

/-- The candidate produced for the pair (Je, ai). -/
def candJeAi : ElisionCandidate := ⟨0, mergeSlots slotJe slotAi⟩

-- --- Helper lemmas ---

theorem pairElides_nil (i : Nat) : pairElides [] i = false := by
  simp [pairElides]

theorem pairElides_single (s : SentenceSlot) (i : Nat) : pairElides [s] i = false := by
  unfold pairElides
  cases i <;> simp

theorem pairElides_cons_succ (s : SentenceSlot) (l : List SentenceSlot) (i : Nat) :
    pairElides (s :: l) (i + 1) = pairElides l i := by
  simp [pairElides]

theorem pairElides_cons_cons_zero (s1 s2 : SentenceSlot) (l : List SentenceSlot) :
    pairElides (s1 :: s2 :: l) 0 = shouldElide s1 s2 := by
  simp [pairElides]

/-- Structure of a returned candidate: its index addresses a qualifying pair
and its merged slot is the merge of that pair. -/
theorem findElisionCandidate_eq_some (slots : List SentenceSlot) (c : ElisionCandidate)
    (h : findElisionCandidate slots = some c) :
    ∃ a b, slots[c.index]? = some a ∧ slots[c.index + 1]? = some b ∧
      shouldElide a b = true ∧ c.mergedSlot = mergeSlots a b := by
  induction slots generalizing c with
  | nil => simp [findElisionCandidate] at h
  | cons s1 tail ih =>
    cases tail with
    | nil => simp [findElisionCandidate] at h
    | cons s2 rest =>
      rw [findElisionCandidate] at h
      by_cases hse : shouldElide s1 s2 = true
      · rw [if_pos hse] at h
        obtain rfl : c = ⟨0, mergeSlots s1 s2⟩ := (Option.some_inj.mp h).symm
        exact ⟨s1, s2, by simp, by simp, hse, rfl⟩
      · rw [if_neg hse] at h
        rcases Option.map_eq_some'.mp h with ⟨c', hc', hfc⟩
        cases hfc
        rcases ih c' hc' with ⟨a, b, h1, h2, h3, h4⟩
        exact ⟨a, b, by simpa using h1, by simpa using h2, h3, h4⟩

/-- A returned candidate addresses the first qualifying pair: every earlier
adjacent pair fails the elision predicate. -/
theorem findElisionCandidate_first (slots : List SentenceSlot) (c : ElisionCandidate)
    (h : findElisionCandidate slots = some c) :
    ∀ j, j < c.index → pairElides slots j = false := by
  induction slots generalizing c with
  | nil => simp [findElisionCandidate] at h
  | cons s1 tail ih =>
    cases tail with
    | nil => simp [findElisionCandidate] at h
    | cons s2 rest =>
      rw [findElisionCandidate] at h
      by_cases hse : shouldElide s1 s2 = true
      · rw [if_pos hse] at h
        obtain rfl : c = ⟨0, mergeSlots s1 s2⟩ := (Option.some_inj.mp h).symm
        intro j hj
        exact absurd hj (by simp)
      · rw [if_neg hse] at h
        rcases Option.map_eq_some'.mp h with ⟨c', hc', hfc⟩
        cases hfc
        intro j hj
        cases j with
        | zero => simpa [pairElides_cons_cons_zero] using eq_false_of_ne_true hse
        | succ j' =>
          rw [pairElides_cons_succ]
          exact ih c' hc' j' (by simpa using hj)

/-- The scan returns absent exactly when no adjacent pair qualifies. -/
theorem findElisionCandidate_none_iff (slots : List SentenceSlot) :
    findElisionCandidate slots = none ↔ ∀ i, pairElides slots i = false := by
  induction slots with
  | nil => simp [findElisionCandidate, pairElides_nil]
  | cons s1 tail ih =>
    cases tail with
    | nil => simp [findElisionCandidate, pairElides_single]
    | cons s2 rest =>
      rw [findElisionCandidate]
      by_cases hse : shouldElide s1 s2 = true
      · rw [if_pos hse]
        constructor
        · intro h; exact absurd h (by simp)
        · intro h
          have h0 := h 0
          rw [pairElides_cons_cons_zero, hse] at h0
          exact absurd h0 (by simp)
      · rw [if_neg hse]
        rw [Option.map_eq_none']
        rw [ih]
        constructor
        · intro h i
          cases i with
          | zero => simpa [pairElides_cons_cons_zero] using eq_false_of_ne_true hse
          | succ i' => rw [pairElides_cons_succ]; exact h i'
        · intro h i
          have := h (i + 1)
          rwa [pairElides_cons_succ] at this

/-- When the elision predicate holds, both slots hold words. -/
theorem shouldElide_values (a b : SentenceSlot) (h : shouldElide a b = true) :
    ∃ v1 v2, a.value = some v1 ∧ b.value = some v2 := by
  unfold shouldElide at h
  cases ha : a.value with
  | none => rw [ha] at h; cases hb : b.value <;> simp at h
  | some v1 =>
    cases hb : b.value with
    | none => rw [ha, hb] at h; simp at h
    | some v2 => exact ⟨v1, v2, rfl, rfl⟩

/-- The source predicate agrees with the spec's wording of it. -/
theorem shouldElide_eq_spec (a b : SentenceSlot) : shouldElide a b = specShouldElide a b := by
  unfold shouldElide specShouldElide
  cases ha : a.value with
  | none => rfl
  | some v1 =>
    cases hb : b.value with
    | none => rfl
    | some v2 =>
      simp only []
      cases hd : (jsToLower v2.text).data with
      | nil => simp
      | cons c cs =>
        cases htr : (["je", "me", "te", "se", "le", "la", "de", "ne", "que", "jusque", "si", "ce"].contains
            (jsToLower v1.text)) <;>
        cases hv : (['a', 'e', 'i', 'o', 'u', 'y', 'h', 'é', 'è', 'ê'].contains c) <;>
        cases hsi : (jsToLower v1.text == "si") <;>
        cases hce : (jsToLower v1.text == "ce") <;>
        cases hil : (jsStartsWith (jsToLower v2.text) "il") <;>
        cases hest : (jsStartsWith (jsToLower v2.text) "est") <;>
        cases het : (jsStartsWith (jsToLower v2.text) "ét") <;>
          simp [htr, hv, hsi, hce, hil, hest, het]

/-- The merged slot of a word-holding pair carries the text
`first word minus final character` + apostrophe + `second word`. -/
theorem mergeSlots_text (s1 s2 : SentenceSlot) (v1 v2 : Word)
    (h1 : s1.value = some v1) (h2 : s2.value = some v2) :
    (mergeSlots s1 s2).value.map Word.text = some (jsDropLast v1.text ++ apoStr ++ v2.text) := by
  unfold mergeSlots
  rw [h1, h2]
  rfl

-- --- Claim theorems ---

/-- Claim C1, counterexample: the merge descriptor for the qualifying pair
(Je, ai) has merged text "J'ai" — the prefix keeps the first word's original
case — not the lowercase "j'ai" demanded by the claim, and the [Je, ai, un,
chat] scenario assembles to "J'ai un chat", not "j'ai un chat". -/
theorem C1_counterexample :
    ((findElisionCandidate [slotJe, slotAi]).map (fun c => c.mergedSlot.value.map Word.text))
      = some (some ("J" ++ apoStr ++ "ai"))
  ∧ ("J" ++ apoStr ++ "ai" : String) ≠ "j" ++ apoStr ++ "ai"
  ∧ assembleSentence (reduceToFixedPoint [slotJe, slotAi, slotUn, slotChat])
      ≠ "j" ++ apoStr ++ "ai un chat" := by
  refine ⟨?_, ?_, ?_⟩ <;> decide

/-- Claim C1 (amended): every merge descriptor returned by
findElisionCandidate has merged text equal to the first word's ORIGINAL-cased
text with its final character removed, then an apostrophe, then the second
word's original-cased text (the first word's case IS preserved); and the
merge loop run to fixed point on [Je, ai, un, chat] assembles to
"J'ai un chat". -/
theorem C1_merge_text_and_scenario (slots : List SentenceSlot) (c : ElisionCandidate)
    (h : findElisionCandidate slots = some c) :
    (∃ a b v1 v2, slots[c.index]? = some a ∧ slots[c.index + 1]? = some b ∧
       a.value = some v1 ∧ b.value = some v2 ∧
       c.mergedSlot.value.map Word.text = some (jsDropLast v1.text ++ apoStr ++ v2.text))
  ∧ assembleSentence (reduceToFixedPoint [slotJe, slotAi, slotUn, slotChat])
      = "J" ++ apoStr ++ "ai un chat" := by
  refine ⟨?_, by decide⟩
  obtain ⟨a, b, ha, hb, hse, hm⟩ := findElisionCandidate_eq_some slots c h
  obtain ⟨v1, v2, hv1, hv2⟩ := shouldElide_values a b hse
  refine ⟨a, b, v1, v2, ha, hb, hv1, hv2, ?_⟩
  rw [hm]
  exact mergeSlots_text a b v1 v2 hv1 hv2

/-- Witness for C1 at the concrete pair (Je, ai): the merged text is "J'ai". -/
theorem C1_witness : candJeAi.mergedSlot.value.map Word.text
    = some ("J" ++ apoStr ++ "ai") := by
  obtain ⟨a, b, v1, v2, h1, h2, h3, h4, h5⟩ :=
    (C1_merge_text_and_scenario [slotJe, slotAi] candJeAi (by decide)).1
  have h1' : some slotJe = some a := h1
  obtain rfl := Option.some_inj.mp h1'
  have h2' : some slotAi = some b := h2
  obtain rfl := Option.some_inj.mp h2'
  have h3' : some wJe = some v1 := h3
  obtain rfl := Option.some_inj.mp h3'
  have h4' : some wAi = some v2 := h4
  obtain rfl := Option.some_inj.mp h4'
  rw [h5]; decide

/-- Claim C2, counterexample: the special-casing of avoir/être/aller is a
case-sensitive comparison: the infinitive "Avoir" (capital A) matches
case-insensitively but yields the empty paradigm, not the fixed 6-form
one. -/
theorem C2_counterexample :
    wAvoirCap.text = "Avoir"
  ∧ (getVerbForms rndZero wAvoirCap).conjugations = []
  ∧ (getVerbForms rndZero wAvoirCap).pp = none
  ∧ (getVerbForms rndZero wAvoirCap).conjugations.map Word.text
      ≠ ["ai", "as", "a", "avons", "avez", "ont"] := by
  refine ⟨rfl, ?_, ?_, ?_⟩ <;> decide

/-- Claim C2 (amended): for every infinitive Word whose text is exactly
"avoir", "être" or "aller" (case-sensitive match), getVerbForms returns that
verb's fixed hard-coded 6-form paradigm plus its fixed past participle
("eu", "été", "allé" respectively), never derived by the generative "-er"
algorithm. -/
theorem C2_fixed_irregular_paradigms (rnd : Nat → String) (w : Word) :
    (w.text = "avoir" →
      (getVerbForms rnd w).conjugations.map Word.text = ["ai", "as", "a", "avons", "avez", "ont"]
      ∧ (getVerbForms rnd w).conjugations.map Word.tags
          = [["Je"], ["Tu"], ["Il", "Elle"], ["Nous"], ["Vous"], ["Ils", "Elles"]]
      ∧ (getVerbForms rnd w).pp.map Word.text = some "eu"
      ∧ (getVerbForms rnd w).inf = w)
  ∧ (w.text = "être" →
      (getVerbForms rnd w).conjugations.map Word.text = ["suis", "es", "est", "sommes", "êtes", "sont"]
      ∧ (getVerbForms rnd w).conjugations.map Word.tags
          = [["Je"], ["Tu"], ["Il", "Elle"], ["Nous"], ["Vous"], ["Ils", "Elles"]]
      ∧ (getVerbForms rnd w).pp.map Word.text = some "été"
      ∧ (getVerbForms rnd w).inf = w)
  ∧ (w.text = "aller" →
      (getVerbForms rnd w).conjugations.map Word.text = ["vais", "vas", "va", "allons", "allez", "vont"]
      ∧ (getVerbForms rnd w).conjugations.map Word.tags
          = [["Je"], ["Tu"], ["Il", "Elle"], ["Nous"], ["Vous"], ["Ils", "Elles"]]
      ∧ (getVerbForms rnd w).pp.map Word.text = some "allé"
      ∧ (getVerbForms rnd w).inf = w) := by
  obtain ⟨wid, wtext, wtype, wtr, wtags⟩ := w
  refine ⟨fun h => ?_, fun h => ?_, fun h => ?_⟩ <;>
  · replace h : wtext = _ := h
    subst h
    exact ⟨rfl, rfl, rfl, rfl⟩

/-- Witness for C2 at the concrete infinitive "avoir". -/
theorem C2_witness : (getVerbForms rndZero wAvoirInf).conjugations.map Word.text
    = ["ai", "as", "a", "avons", "avez", "ont"] :=
  ((C2_fixed_irregular_paradigms rndZero wAvoirInf).1 rfl).1

/-- Claim C3: the slot-level engine and the string-level normalizer diverge on
the trigger "jusque": the pair (jusque, ici) elides at slot level into
"jusqu'ici", while applyFrenchElision leaves the space-joined string "jusque
ici" uncontracted, because the regex pass's trigger set lacks "jusque" (and
only rewrites "si il" specially). -/
theorem C3_jusque_divergence :
    shouldElide slotJusque slotIci = true
  ∧ ((findElisionCandidate [slotJusque, slotIci]).map (fun c => c.mergedSlot.value.map Word.text))
      = some (some ("jusqu" ++ apoStr ++ "ici"))
  ∧ applyFrenchElision "jusque ici" = "jusque ici"
  ∧ ("jusqu" ++ apoStr ++ "ici" : String) ≠ "jusque ici"
  ∧ regexTriggers = (["je", "me", "te", "se", "le", "la", "de", "ne", "que", "ce"].map String.data)
  ∧ ¬ ("jusque".data ∈ regexTriggers) := by
  refine ⟨?_, ?_, ?_, ?_, rfl, ?_⟩ <;> decide

/-- Claim C4, counterexample: inflecting the noun "chat" (tags ["m",
"mutable"]) to feminine singular returns tags exactly ["feminine",
"singular"]: the prior tag "mutable" is NOT left in place. -/
theorem C4_counterexample :
    "mutable" ∈ wChat.tags
  ∧ (generateVariations wChat GenderOpt.f NumberOpt.s).tags = ["feminine", "singular"]
  ∧ "mutable" ∉ (generateVariations wChat GenderOpt.f NumberOpt.s).tags := by
  refine ⟨?_, ?_, ?_⟩ <;> decide

/-- Claim C4 (amended): for nouns the returned Word's tags are exactly the
resolved gender and number (all prior tags, including "mutable", are
discarded); for adjectives the resolved gender and number tags are appended
after all prior tags (prior gender/number tags are not removed); the
translation field is unchanged in both cases. -/
theorem C4_tags_and_translation (w : Word) (g : GenderOpt) (n : NumberOpt) :
    (w.type = PartOfSpeech.NOUN →
      (generateVariations w g n).tags =
        [ if g = GenderOpt.f then "feminine" else "masculine"
        , if n = NumberOpt.pl then "plural" else "singular" ]
      ∧ (generateVariations w g n).translation = w.translation)
  ∧ (w.type = PartOfSpeech.ADJECTIVE →
      (generateVariations w g n).tags =
        w.tags ++ [ if g = GenderOpt.f then "feminine" else "masculine"
                  , if n = NumberOpt.pl then "plural" else "singular" ]
      ∧ (generateVariations w g n).translation = w.translation) := by
  constructor
  · intro h
    unfold generateVariations
    rw [if_pos h]
    exact ⟨rfl, rfl⟩
  · intro h
    have hne : ¬(w.type = PartOfSpeech.NOUN) := by rw [h]; decide
    unfold generateVariations
    rw [if_neg hne, if_pos h]
    exact ⟨rfl, rfl⟩

/-- Witness for C4 at the adjective "beau": tags are appended after the (here
empty) prior tags and the translation is kept. -/
theorem C4_witness :
    (generateVariations wBeau GenderOpt.f NumberOpt.pl).tags = ["feminine", "plural"]
  ∧ (generateVariations wBeau GenderOpt.f NumberOpt.pl).translation = "beautiful" := by
  have h := (C4_tags_and_translation wBeau GenderOpt.f NumberOpt.pl).2 rfl
  exact ⟨by rw [h.1]; decide, h.2⟩

/-- Claim C5: findElisionCandidate returns a candidate exactly for the first
adjacent qualifying pair (all earlier pairs fail the predicate), returns
absent exactly when no pair qualifies, and the qualifying predicate is the
claim's: both slots hold Words, the lowercased first text is in
{je, me, te, se, le, la, de, ne, que, jusque, si, ce}, the lowercased second
text begins with a character of {a, e, i, o, u, y, h, é, è, ê}, narrowed by
the "si"→"il" and "ce"→"est"/"ét" restrictions. -/
theorem C5_first_qualifying_pair (slots : List SentenceSlot) :
    (∀ c, findElisionCandidate slots = some c →
      pairElides slots c.index = true ∧ ∀ j, j < c.index → pairElides slots j = false)
  ∧ (findElisionCandidate slots = none ↔ ∀ i, pairElides slots i = false)
  ∧ (∀ a b, shouldElide a b = specShouldElide a b) := by
  refine ⟨?_, findElisionCandidate_none_iff slots, shouldElide_eq_spec⟩
  intro c h
  obtain ⟨a, b, h1, h2, h3, _⟩ := findElisionCandidate_eq_some slots c h
  refine ⟨?_, findElisionCandidate_first slots c h⟩
  unfold pairElides
  rw [h1, h2]
  exact h3

/-- Witness for C5 at the concrete pair (Je, ai). -/
theorem C5_witness : pairElides [slotJe, slotAi] 0 = true :=
  ((C5_first_qualifying_pair [slotJe, slotAi]).1 candJeAi (by decide)).1

/-- Claim C6: for every infinitive not named avoir/être/aller and not ending
in "-er", getVerbForms returns the explicit empty paradigm (no forms, no past
participle, infinitive still the input word) instead of failing. -/
theorem C6_unsupported_verb (rnd : Nat → String) (w : Word)
    (h1 : w.text ≠ "avoir") (h2 : w.text ≠ "être") (h3 : w.text ≠ "aller")
    (h4 : jsEndsWith w.text "er" = false) :
    getVerbForms rnd w = { inf := w, pp := none, conjugations := [] } := by
  unfold getVerbForms
  rw [if_neg h1, if_neg h2, if_neg h3]
  by_cases h5 : (jsEndsWith w.text "er" || jsEndsWith w.text "ir" || jsEndsWith w.text "re") = true
  · rw [if_pos h5, if_neg (by simp [h4])]
  · rw [if_neg h5]

/-- Witness for C6 at the concrete "-ir" infinitive "dormir". -/
theorem C6_witness :
    getVerbForms rndZero wDormir = { inf := wDormir, pp := none, conjugations := [] } :=
  C6_unsupported_verb rndZero wDormir (by decide) (by decide) (by decide) (by decide)

/-- Claim C7: for every regular "-er" infinitive (outside the three
irregulars), getVerbForms returns exactly the five person-tagged present
forms — adjusted-singular-stem+"e", adjusted-singular-stem+"es", the
spelling-adjusted nous form, stem+"ez", adjusted-singular-stem+"ent" — and
the past participle stem+"é". -/
theorem C7_er_paradigm (rnd : Nat → String) (w : Word)
    (h : jsEndsWith w.text "er" = true)
    (h1 : w.text ≠ "avoir") (h2 : w.text ≠ "être") (h3 : w.text ≠ "aller") :
    ((getVerbForms rnd w).conjugations.map Word.text =
      [ specSingularStem w.text ++ "e"
      , specSingularStem w.text ++ "es"
      , specNousForm w.text
      , w.text.dropRight 2 ++ "ez"
      , specSingularStem w.text ++ "ent" ])
  ∧ ((getVerbForms rnd w).conjugations.map Word.tags =
      [["Je", "Il", "Elle"], ["Tu"], ["Nous"], ["Vous"], ["Ils", "Elles"]])
  ∧ ((getVerbForms rnd w).pp.map Word.text = some (w.text.dropRight 2 ++ "é"))
  ∧ (getVerbForms rnd w).conjugations.length = 5 := by
  unfold getVerbForms
  rw [if_neg h1, if_neg h2, if_neg h3]
  have h5 : (jsEndsWith w.text "er" || jsEndsWith w.text "ir" || jsEndsWith w.text "re") = true := by
    simp [h]
  rw [if_pos h5, if_pos h]
  unfold generateErVerbs specSingularStem specNousForm createWord
  exact ⟨rfl, rfl, rfl, rfl⟩

/-- Witness for C7 at the concrete "-er" infinitive "manger" (a "-ger" verb,
so the nous form keeps the mute "e"). -/
theorem C7_witness : (getVerbForms rndZero wManger).conjugations.map Word.text
    = ["mange", "manges", "mangeons", "mangez", "mangent"] := by
  have h := (C7_er_paradigm rndZero wManger (by decide) (by decide) (by decide) (by decide)).1
  rw [h]; decide

/-- Claim C8: for every noun, inflection applies the gender step first (fixed
irregular lookup, else "-er"→"-ère", else "-f"→"-ve", else "-x"→"-se", else
append "e" unless already ending in "e"; only when the target is feminine and
the word is not already tagged feminine) and the plural step on its result
(s/x/z endings unchanged, "-au"/"-eu" append "x", "-al" becomes "aux", else
append "s"); pluralization is the identity on stems ending in s/x/z. -/
theorem C8_noun_inflection (w : Word) (g : GenderOpt) (n : NumberOpt)
    (h : w.type = PartOfSpeech.NOUN) :
    ((generateVariations w g n).text =
      (let stem :=
        if g = GenderOpt.f ∧ isTaggedFeminine w = false then specNounFeminize w.text else w.text
       if n = NumberOpt.pl then specNounPluralize stem else stem))
  ∧ (∀ t : String, (jsEndsWith t "s" || jsEndsWith t "x" || jsEndsWith t "z") = true →
      specNounPluralize t = t) := by
  constructor
  · unfold generateVariations
    rw [if_pos h]
    rfl
  · intro t ht
    unfold specNounPluralize
    rw [if_pos ht]

/-- Witness for C8 at the concrete noun "chat" inflected to feminine
singular. -/
theorem C8_witness : (generateVariations wChat GenderOpt.f NumberOpt.s).text = "chatte" := by
  have h := (C8_noun_inflection wChat GenderOpt.f NumberOpt.s rfl).1
  rw [h]; decide

/-- Claim C9: for adjectives in the irregular table, inflection selects the
stored form by (gender, number) with masculine-singular being the lemma
itself — in particular beau/feminine/plural gives "belles" straight from the
table; for adjectives outside the table the feminine rule (append "e" unless
ending in "e") applies before the plural rule (unchanged on "s"/"x" endings,
"-au" appends "x", else append "s"). -/
theorem C9_adjective_inflection (w : Word) (g : GenderOpt) (n : NumberOpt)
    (h : w.type = PartOfSpeech.ADJECTIVE) :
    (∀ forms, irregularAdjectives.lookup w.text = some forms →
      (generateVariations w g n).text =
        (if g = GenderOpt.f ∧ n = NumberOpt.s then forms.f
         else if g = GenderOpt.m ∧ n = NumberOpt.pl then forms.mpl
         else if g = GenderOpt.f ∧ n = NumberOpt.pl then forms.fpl
         else w.text))
  ∧ (irregularAdjectives.lookup w.text = none →
      (generateVariations w g n).text =
        (let fem := if g = GenderOpt.f then specAdjFeminize w.text else w.text
         if n = NumberOpt.pl then specAdjPluralize fem else fem))
  ∧ (generateVariations wBeau GenderOpt.f NumberOpt.pl).text = "belles" := by
  have hne : ¬(w.type = PartOfSpeech.NOUN) := by rw [h]; decide
  refine ⟨?_, ?_, by decide⟩
  · intro forms hf
    unfold generateVariations
    rw [if_neg hne, if_pos h]
    simp only [hf]
  · intro hf
    unfold generateVariations
    rw [if_neg hne, if_pos h]
    simp only [hf]
    rfl

/-- Witness for C9 at the concrete irregular adjective "vieux" inflected to
feminine singular. -/
theorem C9_witness : (generateVariations wVieux GenderOpt.f NumberOpt.s).text = "vieille" := by
  have h := (C9_adjective_inflection wVieux GenderOpt.f NumberOpt.s rfl).1
    ⟨"vieille", "vieux", "vieilles"⟩ (by decide)
  rw [h]; decide

/-- Claim C10, counterexample: a slot sequence whose second word is the
vowel-initial "a'a" (which itself contains an apostrophe) produces the merge
descriptor "J'a'a" with two apostrophes, not exactly one. -/
theorem C10_counterexample :
    ((findElisionCandidate [slotJe, slotApos]).map
      (fun c => c.mergedSlot.value.map (fun w => apostropheCount w.text)))
      = some (some 2)
  ∧ (2 : Nat) ≠ 1 := by
  exact ⟨by decide, by decide⟩

/-- Claim C10 (amended): for every slot sequence whose occupying words
contain no apostrophe (true of every vowel-initial word of the lexical
tables), the merge descriptor's text contains exactly one apostrophe. -/
theorem C10_merged_single_apostrophe (slots : List SentenceSlot) (c : ElisionCandidate)
    (h : findElisionCandidate slots = some c)
    (hclean : ∀ s ∈ slots, ∀ v, s.value = some v → apostropheCount v.text = 0) :
    ∀ w, c.mergedSlot.value = some w → apostropheCount w.text = 1 := by
  obtain ⟨a, b, ha, hb, hse, hm⟩ := findElisionCandidate_eq_some slots c h
  obtain ⟨v1, v2, hv1, hv2⟩ := shouldElide_values a b hse
  intro w hw
  have haMem : a ∈ slots := List.getElem?_mem ha
  have hbMem : b ∈ slots := List.getElem?_mem hb
  have hc1 : apostropheCount v1.text = 0 := hclean a haMem v1 hv1
  have hc2 : apostropheCount v2.text = 0 := hclean b hbMem v2 hv2
  have ht := mergeSlots_text a b v1 v2 hv1 hv2
  rw [hm] at hw
  rw [hw] at ht
  have hwt : w.text = jsDropLast v1.text ++ apoStr ++ v2.text := by
    simpa using ht
  unfold apostropheCount at hc1 hc2 ⊢
  rw [hwt, String.data_append, String.data_append, List.count_append, List.count_append]
  have hd1 : (jsDropLast v1.text).data.count apoChar = 0 := by
    have hsub : (jsDropLast v1.text).data.Sublist v1.text.data := by
      unfold jsDropLast
      exact List.dropLast_sublist _
    have hle := hsub.count_le apoChar
    omega
  have hda : apoStr.data.count apoChar = 1 := by decide
  omega

/-- Witness for C10 at the concrete clean pair (Je, ai): the merged text
"J'ai" has exactly one apostrophe. -/
theorem C10_witness : apostropheCount ((candJeAi.mergedSlot.value).getD wJe).text = 1 := by
  refine C10_merged_single_apostrophe [slotJe, slotAi] candJeAi (by decide) ?_ _ (by decide)
  intro s hs v hv
  have hmem : s = slotJe ∨ s = slotAi := by simpa using hs
  rcases hmem with rfl | rfl
  · have hv' : some wJe = some v := hv
    obtain rfl := Option.some_inj.mp hv'
    decide
  · have hv' : some wAi = some v := hv
    obtain rfl := Option.some_inj.mp hv'
    decide

end FrenchEngine
